import Mathlib

/-!
# Verification of the `e-math` algebraic value-type library

Shallow embedding of the library's `Rational`, `Fixed`, matrix
(`Mat2x2`/`Mat3x3`/`Mat4x4`) and `Quaternion` operations, with theorems
settling the specification claims about them.

Conventions of the embedding:
* Machine integers are modelled as `Int`/`Nat`.  The explicit `as` casts of
  the source (two's-complement reinterpretation between `i32` and `u32`) are
  modelled exactly, as reduction modulo `2^32`; overflow of `+`/`-`/`*`
  themselves is not modelled, and every concrete input used below is far
  below any overflow bound.
* Rust's truncating signed division (`/` on `i32`) is `Int.tdiv`;
  Rust's `%` on unsigned integers is `Nat.mod`; arithmetic shift right on a
  signed integer by `B` bits is `Int` `>>>`; shift left is `<<<`.
* Float scalars are not modelled; the matrix and quaternion formulas are
  instantiated at the exact scalar `ℚ`, which the library also supports
  (any scalar with the required arithmetic traits), so the algebraic
  content of the formulas is checked exactly.
-/

namespace EMath

/-! ## Rational: source file `src/rational.rs` -/

/-- The iterative Euclidean GCD loop `_gcd` of `rational.rs`
(`while b != 0 { c = b; b = a % b; a = c }`), on the unsigned domain. -/
def gcdLoop (a b : Nat) : Nat :=
  if b = 0 then a else gcdLoop b (a % b)
termination_by b
decreasing_by exact Nat.mod_lt _ (Nat.pos_of_ne_zero (by assumption))

theorem gcdLoop_eq_gcd (a b : Nat) : gcdLoop a b = Nat.gcd a b := by
  induction b using Nat.strong_induction_on generalizing a with
  | _ b ih =>
    rw [gcdLoop]
    by_cases h : b = 0
    · simp [h]
    · rw [if_neg h, ih (a % b) (Nat.mod_lt _ (Nat.pos_of_ne_zero h)) b,
        Nat.gcd_comm b (a % b), ← Nat.gcd_rec b a, Nat.gcd_comm]

/-- `Rational<T,UT>` for an unsigned instantiation such as `(u32,u32)`:
numerator `n` and denominator `d` both live in the unsigned domain. -/
structure URational where
  n : Nat
  d : Nat
deriving DecidableEq

namespace URational

/-- `Rational::_reduce` for an unsigned instantiation: the casts
`self.n as $ut` / `gcd as $t` are identities there. -/
def reduce (r : URational) : URational :=
  let g := gcdLoop r.n r.d
  ⟨r.n / g, r.d / g⟩

/-- `impl Add<Rational> for Rational` (rational + rational), unsigned. -/
def addRat (a b : URational) : URational :=
  reduce ⟨a.n * b.d + b.n * a.d, a.d * b.d⟩

/-- `impl Sub<Rational> for Rational` (rational - rational), unsigned.
On the unsigned machine type the numerator subtraction is a `u32`
subtraction; it is exact whenever no underflow occurs, which is the only
regime used below. -/
def subRat (a b : URational) : URational :=
  reduce ⟨a.n * b.d - b.n * a.d, a.d * b.d⟩

/-- `impl Mul<Rational> for Rational` (rational * rational), unsigned. -/
def mulRat (a b : URational) : URational :=
  reduce ⟨a.n * b.n, a.d * b.d⟩

/-- `impl Div<Rational> for Rational` (rational / rational), unsigned
(`rational_impl_div_unsigned!`). -/
def divRat (a b : URational) : URational :=
  reduce ⟨a.n * b.d, a.d * b.n⟩

/-- `impl Rem<$t> for Rational` (rational % scalar): take the numerator
modulo the scalar and keep the denominator; the source performs no
reduction here. -/
def remScalar (a : URational) (s : Nat) : URational :=
  ⟨a.n % s, a.d⟩

/-- `impl Rem<Rational> for Rational` (rational % rational): the body is
`// TODO` followed by `self` — the operand is returned unchanged. -/
def remRat (a _b : URational) : URational :=
  a

/-- `impl RemAssign<Rational> for Rational` (rational %= rational): the body
is empty (`// TODO`), so the receiver's final state equals its initial
state; modelled as the state-passing function returning the receiver. -/
def remAssignRat (a _b : URational) : URational :=
  a

end URational

/-- Two's-complement cast `i32 -> u32` (Rust `as`): reduce modulo `2^32`.
`Int.emod` with a positive modulus is already the nonnegative
representative. -/
def u32cast (n : Int) : Nat :=
  (n % (2 ^ 32 : Int)).toNat

/-- Two's-complement cast `u32 -> i32` (Rust `as`): values at or above
`2^31` wrap to negatives. -/
def i32cast (u : Nat) : Int :=
  if u % 2 ^ 32 < 2 ^ 31 then ((u % 2 ^ 32 : Nat) : Int)
  else ((u % 2 ^ 32 : Nat) : Int) - 2 ^ 32

/-- `Rational<i32,u32>`: signed numerator, unsigned denominator. -/
structure IRational where
  n : Int
  d : Nat
deriving DecidableEq

namespace IRational

/-- `Rational::_reduce` for the `(i32,u32)` instantiation:
`let gcd = _gcd(self.n as $ut, self.d); self.n /= gcd as $t; self.d /= gcd`.
The numerator is first reinterpreted as `u32` (two's complement), the
divisor is reinterpreted back as `i32`, and `i32` division truncates
toward zero. -/
def reduce (r : IRational) : IRational :=
  let g := gcdLoop (u32cast r.n) r.d
  ⟨Int.tdiv r.n (i32cast g), r.d / g⟩

/-- `impl Add<Rational> for Rational` (rational + rational), `(i32,u32)`:
`n = self.n * (other.d as $t) + other.n * (self.d as $t)`,
`d = self.d * other.d`, then `_reduce`. -/
def addRat (a b : IRational) : IRational :=
  reduce ⟨a.n * i32cast b.d + b.n * i32cast a.d, a.d * b.d⟩

/-- `impl Sub<Rational> for Rational` (rational - rational), `(i32,u32)`. -/
def subRat (a b : IRational) : IRational :=
  reduce ⟨a.n * i32cast b.d - b.n * i32cast a.d, a.d * b.d⟩

/-- `Rational::inverse` for `(i32,u32)`:
`Rational { n: self.d as $t, d: self.n as $ut }` — a plain swap through the
two casts, with no zero check, no sign handling and no `_reduce` call. -/
def inverse (r : IRational) : IRational :=
  ⟨i32cast r.d, u32cast r.n⟩

/-- `impl Rem<Rational> for Rational` (rational % rational), `(i32,u32)`:
the body is `// TODO` followed by `self`. -/
def remRat (a _b : IRational) : IRational :=
  a

/-- `impl RemAssign<Rational> for Rational` (rational %= rational),
`(i32,u32)`: the body is empty (`// TODO`); the receiver's final state
equals its initial state. -/
def remAssignRat (a _b : IRational) : IRational :=
  a

end IRational

theorem i32cast_of_lt {u : Nat} (h : u < 2 ^ 31) : i32cast u = (u : Int) := by
  unfold i32cast
  rw [Nat.mod_eq_of_lt (by omega), if_pos h]

theorem u32cast_int_of_neg {n : Int} (h0 : -2 ^ 32 ≤ n) (h1 : n < 0) :
    (u32cast n : Int) = n + 2 ^ 32 := by
  unfold u32cast
  omega

theorem u32cast_int_of_nonneg {n : Int} (h0 : 0 ≤ n) (h1 : n < 2 ^ 32) :
    (u32cast n : Int) = n := by
  unfold u32cast
  omega

/-! ## Fixed: source file `src/fixed.rs` -/

/-- `Fixed<T,B>` for a signed backing integer: a single stored integer,
interpreted as `value * 2^(-B)`. -/
structure Fixed (B : Nat) where
  v : Int
deriving DecidableEq

namespace Fixed

/-- `impl Mul<Fixed<T,B>> for Fixed<T,B>`: `Fixed(self.0 * other.0 >> B)`.
Rust `>>` on a signed integer is an arithmetic shift, which is `Int`'s
`>>>`. -/
def mul {B : Nat} (a b : Fixed B) : Fixed B :=
  ⟨(a.v * b.v) >>> B⟩

/-- `impl Div<Fixed<T,B>> for Fixed<T,B>`: `Fixed((self.0 << B) / other.0)`.
Rust `<<` on a signed integer is `Int`'s `<<<`; Rust signed `/` truncates
toward zero (`Int.tdiv`). -/
def div {B : Nat} (a b : Fixed B) : Fixed B :=
  ⟨Int.tdiv (a.v <<< (B : Int)) b.v⟩

end Fixed

/-! ## Vectors and matrices, instantiated at the exact scalar `ℚ`
(source files `src/vec3.rs`, `src/vec4.rs`, `src/mat2x2.rs`,
`src/mat3x3.rs`, `src/mat4x4.rs`) -/

/-- Modelled from the spec: `vec2.rs` is declared in `lib.rs` but the file
is absent; per the spec's data model (`Vec2<T>` a fixed-size component
tuple) and its construction sites in `mat2x2.rs` it is the plain pair
`{ x, y }`. -/
structure Vec2 where
  x : ℚ
  y : ℚ
deriving DecidableEq

/-- `Vec3<T>` of `vec3.rs`, at `T = ℚ`. -/
structure Vec3 where
  x : ℚ
  y : ℚ
  z : ℚ
deriving DecidableEq

/-- `Vec4<T>` of `lib.rs`/`vec4.rs`, at `T = ℚ`. -/
structure Vec4 where
  x : ℚ
  y : ℚ
  z : ℚ
  w : ℚ
deriving DecidableEq

/-- `Mat2x2<T>` at `T = ℚ`: two `Vec2` columns `x`, `y`. -/
structure Mat2x2 where
  x : Vec2
  y : Vec2
deriving DecidableEq

namespace Mat2x2

/-- `Mat2x2::determinant`: adjoint of the first column, dotted with it. -/
def determinant (m : Mat2x2) : ℚ :=
  let xx := m.x.x
  let xy := m.x.y
  let yx := m.y.x
  let yy := m.y.y
  let axx := yy
  let axy := -yx
  xx * axx + xy * axy

/-- `impl Div<T> for Mat2x2<T>`: divide every entry by the scalar. -/
def divScalar (m : Mat2x2) (s : ℚ) : Mat2x2 :=
  ⟨⟨m.x.x / s, m.x.y / s⟩, ⟨m.y.x / s, m.y.y / s⟩⟩

/-- `Mat2x2::inverse`: if the determinant is zero return `self` unchanged,
otherwise the transposed adjoint divided by the determinant. -/
def inverse (m : Mat2x2) : Mat2x2 :=
  let xx := m.x.x
  let xy := m.x.y
  let yx := m.y.x
  let yy := m.y.y
  let axx := yy
  let axy := -yx
  let det := xx * axx + xy * axy
  if det = 0 then m
  else
    let ayx := -xy
    let ayy := xx
    divScalar ⟨⟨axx, axy⟩, ⟨ayx, ayy⟩⟩ det

/-- `impl Mul<Mat2x2<T>> for Mat2x2<T>`. -/
def mul (a b : Mat2x2) : Mat2x2 :=
  ⟨⟨a.x.x * b.x.x + a.x.y * b.y.x,
    a.x.x * b.x.y + a.x.y * b.y.y⟩,
   ⟨a.y.x * b.x.x + a.y.y * b.y.x,
    a.y.x * b.x.y + a.y.y * b.y.y⟩⟩

/-- The identity matrix on the `Mat2x2` representation. -/
def identity : Mat2x2 :=
  ⟨⟨1, 0⟩, ⟨0, 1⟩⟩

end Mat2x2

/-- `Mat3x3<T>` at `T = ℚ`. -/
structure Mat3x3 where
  x : Vec3
  y : Vec3
  z : Vec3
deriving DecidableEq

namespace Mat3x3

/-- `Mat3x3::determinant`: adjoint of the first column, dotted with it. -/
def determinant (m : Mat3x3) : ℚ :=
  let xx := m.x.x
  let xy := m.x.y
  let xz := m.x.z
  let yx := m.y.x
  let yy := m.y.y
  let yz := m.y.z
  let zx := m.z.x
  let zy := m.z.y
  let zz := m.z.z
  let axx := yy * zz - zy * yz
  let axy := -(yz * zx - zz * yx)
  let axz := yx * zy - zx * yy
  xx * axx + xy * axy + xz * axz

/-- `impl Div<T> for Mat3x3<T>`: divide every entry by the scalar. -/
def divScalar (m : Mat3x3) (s : ℚ) : Mat3x3 :=
  ⟨⟨m.x.x / s, m.x.y / s, m.x.z / s⟩,
   ⟨m.y.x / s, m.y.y / s, m.y.z / s⟩,
   ⟨m.z.x / s, m.z.y / s, m.z.z / s⟩⟩

/-- `Mat3x3::inverse`: singular matrices are returned unchanged; otherwise
the transposed adjoint divided by the determinant. -/
def inverse (m : Mat3x3) : Mat3x3 :=
  let xx := m.x.x
  let xy := m.x.y
  let xz := m.x.z
  let yx := m.y.x
  let yy := m.y.y
  let yz := m.y.z
  let zx := m.z.x
  let zy := m.z.y
  let zz := m.z.z
  let axx := yy * zz - zy * yz
  let axy := -(yz * zx - zz * yx)
  let axz := yx * zy - zx * yy
  let det := xx * axx + xy * axy + xz * axz
  if det = 0 then m
  else
    let ayx := -(zy * xz - xy * zz)
    let ayy := zz * xx - xz * zx
    let ayz := -(zx * xy - xx * zy)
    let azx := xy * yz - yy * xz
    let azy := -(xz * yx - yz * xx)
    let azz := xx * yy - yx * xy
    divScalar ⟨⟨axx, axy, axz⟩, ⟨ayx, ayy, ayz⟩, ⟨azx, azy, azz⟩⟩ det

/-- `impl Mul<Mat3x3<T>> for Mat3x3<T>`. -/
def mul (a b : Mat3x3) : Mat3x3 :=
  ⟨⟨a.x.x * b.x.x + a.x.y * b.y.x + a.x.z * b.z.x,
    a.x.x * b.x.y + a.x.y * b.y.y + a.x.z * b.z.y,
    a.x.x * b.x.z + a.x.y * b.y.z + a.x.z * b.z.z⟩,
   ⟨a.y.x * b.x.x + a.y.y * b.y.x + a.y.z * b.z.x,
    a.y.x * b.x.y + a.y.y * b.y.y + a.y.z * b.z.y,
    a.y.x * b.x.z + a.y.y * b.y.z + a.y.z * b.z.z⟩,
   ⟨a.z.x * b.x.x + a.z.y * b.y.x + a.z.z * b.z.x,
    a.z.x * b.x.y + a.z.y * b.y.y + a.z.z * b.z.y,
    a.z.x * b.x.z + a.z.y * b.y.z + a.z.z * b.z.z⟩⟩

/-- The identity matrix on the `Mat3x3` representation. -/
def identity : Mat3x3 :=
  ⟨⟨1, 0, 0⟩, ⟨0, 1, 0⟩, ⟨0, 0, 1⟩⟩

end Mat3x3

/-- `Mat4x4<T>` at `T = ℚ`. -/
structure Mat4x4 where
  x : Vec4
  y : Vec4
  z : Vec4
  w : Vec4
deriving DecidableEq

namespace Mat4x4

/-- `Mat4x4::determinant`, transcribed verbatim — including the
`zz * wx - wz * wx` and `wx * wy - wx * zy` factors of its `axw` term. -/
def determinant (m : Mat4x4) : ℚ :=
  let xx := m.x.x
  let xy := m.x.y
  let xz := m.x.z
  let xw := m.x.w
  let yx := m.y.x
  let yy := m.y.y
  let yz := m.y.z
  let yw := m.y.w
  let zx := m.z.x
  let zy := m.z.y
  let zz := m.z.z
  let zw := m.z.w
  let wx := m.w.x
  let wy := m.w.y
  let wz := m.w.z
  let ww := m.w.w
  let axx := yy * (zz * ww - wz * zw) - yz * (zw * wy - ww * zy) + yw * (zy * wz - wy * zz)
  let axy := -(yz * (zw * wx - ww * zx) - yw * (zx * wz - wx * zz) + yx * (zz * ww - wz * zw))
  let axz := yw * (zx * wy - wx * zy) - yx * (zy * ww - wy * zw) + yy * (zw * wx - ww * zx)
  let axw := -(yx * (zy * wz - wy * zz) - yy * (zz * wx - wz * wx) + yz * (wx * wy - wx * zy))
  xx * axx + xy * axy + xz * axz + xw * axw

/-- `impl Div<T> for Mat4x4<T>`: divide every entry by the scalar. -/
def divScalar (m : Mat4x4) (s : ℚ) : Mat4x4 :=
  ⟨⟨m.x.x / s, m.x.y / s, m.x.z / s, m.x.w / s⟩,
   ⟨m.y.x / s, m.y.y / s, m.y.z / s, m.y.w / s⟩,
   ⟨m.z.x / s, m.z.y / s, m.z.z / s, m.z.w / s⟩,
   ⟨m.w.x / s, m.w.y / s, m.w.z / s, m.w.w / s⟩⟩

/-- `Mat4x4::inverse`, transcribed verbatim (same `axw` factors as
`determinant`). -/
def inverse (m : Mat4x4) : Mat4x4 :=
  let xx := m.x.x
  let xy := m.x.y
  let xz := m.x.z
  let xw := m.x.w
  let yx := m.y.x
  let yy := m.y.y
  let yz := m.y.z
  let yw := m.y.w
  let zx := m.z.x
  let zy := m.z.y
  let zz := m.z.z
  let zw := m.z.w
  let wx := m.w.x
  let wy := m.w.y
  let wz := m.w.z
  let ww := m.w.w
  let axx := yy * (zz * ww - wz * zw) - yz * (zw * wy - ww * zy) + yw * (zy * wz - wy * zz)
  let axy := -(yz * (zw * wx - ww * zx) - yw * (zx * wz - wx * zz) + yx * (zz * ww - wz * zw))
  let axz := yw * (zx * wy - wx * zy) - yx * (zy * ww - wy * zw) + yy * (zw * wx - ww * zx)
  let axw := -(yx * (zy * wz - wy * zz) - yy * (zz * wx - wz * wx) + yz * (wx * wy - wx * zy))
  let det := xx * axx + xy * axy + xz * axz + xw * axw
  if det = 0 then m
  else
    let ayx := -(zy * (wz * xw - xz * ww) - zz * (ww * xy - xw * wy) + zw * (wy * xz - xy * wz))
    let ayy := zz * (ww * xx - xw * wx) - zw * (wx * xz - xx * wz) + zx * (wz * xw - xz * ww)
    let ayz := -(zw * (wx * xy - xx * wy) - zx * (wy * xw - xy * ww) + zy * (ww * xx - xw * wx))
    let ayw := zx * (wy * xz - xy * wz) - zy * (wz * xx - xz * wx) + zz * (wx * xy - xx * wy)
    let azx := wy * (xz * yw - yz * xw) - wz * (xw * yy - yz * xy) + ww * (xy * yz - yy * xz)
    let azy := -(wz * (xw * yx - yw * xx) - ww * (xx * yz - yx * xz) + wx * (xz * yw - yz * xw))
    let azz := ww * (xx * yy - yx * xy) - wx * (xy * yw - yy * xw) + wy * (xw * yx - yw * xx)
    let azw := -(wx * (xy * yz - yy * xz) - wy * (xz * yx - yz * xx) + wz * (xx * yy - yx * xy))
    let awx := -(xy * (yz * zw - zz * yw) - xz * (yw * zy - zw * yy) + xw * (yy * zz - zy * yz))
    let awy := xz * (yw * zx - zw * yx) - xw * (yx * zz - zx * yz) + xx * (yz * zw - zz * yw)
    let awz := -(xw * (yx * zy - zx * yy) - xx * (yy * zw - zy * yw) + xy * (yw * zx - zw * yx))
    let aww := xx * (yy * zz - zy * yz) - xy * (yz * zx - zz * yx) + xz * (yx * zy - zx * yy)
    divScalar ⟨⟨axx, axy, axz, axw⟩,
               ⟨ayx, ayy, ayz, ayw⟩,
               ⟨azx, azy, azz, azw⟩,
               ⟨awx, awy, awz, aww⟩⟩ det

/-- `impl Mul<Mat4x4<T>> for Mat4x4<T>`. -/
def mul (a b : Mat4x4) : Mat4x4 :=
  ⟨⟨a.x.x * b.x.x + a.x.y * b.y.x + a.x.z * b.z.x + a.x.w * b.w.x,
    a.x.x * b.x.y + a.x.y * b.y.y + a.x.z * b.z.y + a.x.w * b.w.y,
    a.x.x * b.x.z + a.x.y * b.y.z + a.x.z * b.z.z + a.x.w * b.w.z,
    a.x.x * b.x.w + a.x.y * b.y.w + a.x.z * b.z.w + a.x.w * b.w.w⟩,
   ⟨a.y.x * b.x.x + a.y.y * b.y.x + a.y.z * b.z.x + a.y.w * b.w.x,
    a.y.x * b.x.y + a.y.y * b.y.y + a.y.z * b.z.y + a.y.w * b.w.y,
    a.y.x * b.x.z + a.y.y * b.y.z + a.y.z * b.z.z + a.y.w * b.w.z,
    a.y.x * b.x.w + a.y.y * b.y.w + a.y.z * b.z.w + a.y.w * b.w.w⟩,
   ⟨a.z.x * b.x.x + a.z.y * b.y.x + a.z.z * b.z.x + a.z.w * b.w.x,
    a.z.x * b.x.y + a.z.y * b.y.y + a.z.z * b.z.y + a.z.w * b.w.y,
    a.z.x * b.x.z + a.z.y * b.y.z + a.z.z * b.z.z + a.z.w * b.w.z,
    a.z.x * b.x.w + a.z.y * b.y.w + a.z.z * b.z.w + a.z.w * b.w.w⟩,
   ⟨a.w.x * b.x.x + a.w.y * b.y.x + a.w.z * b.z.x + a.w.w * b.w.x,
    a.w.x * b.x.y + a.w.y * b.y.y + a.w.z * b.z.y + a.w.w * b.w.y,
    a.w.x * b.x.z + a.w.y * b.y.z + a.w.z * b.z.z + a.w.w * b.w.z,
    a.w.x * b.x.w + a.w.y * b.y.w + a.w.z * b.z.w + a.w.w * b.w.w⟩⟩

/-- The identity matrix on the `Mat4x4` representation. -/
def identity : Mat4x4 :=
  ⟨⟨1, 0, 0, 0⟩, ⟨0, 1, 0, 0⟩, ⟨0, 0, 1, 0⟩, ⟨0, 0, 0, 1⟩⟩

end Mat4x4

/-- The mathematical determinant of a 3x3 array, written out. -/
def det3x3 (a b c d e f g h i : ℚ) : ℚ :=
  a * (e * i - f * h) - b * (d * i - f * g) + c * (d * h - e * g)

/-- Modelled from the spec: "determinant via cofactor expansion along the
first column".  The mathematical determinant of the 4x4 entry array
(rows `x`, `y`, `z`, `w`), expanded along its first column; the value is
invariant under transposing the row/column reading of the struct. -/
def det4Spec (m : Mat4x4) : ℚ :=
  m.x.x * det3x3 m.y.y m.y.z m.y.w m.z.y m.z.z m.z.w m.w.y m.w.z m.w.w
  - m.y.x * det3x3 m.x.y m.x.z m.x.w m.z.y m.z.z m.z.w m.w.y m.w.z m.w.w
  + m.z.x * det3x3 m.x.y m.x.z m.x.w m.y.y m.y.z m.y.w m.w.y m.w.z m.w.w
  - m.w.x * det3x3 m.x.y m.x.z m.x.w m.y.y m.y.z m.y.w m.z.y m.z.z m.z.w

/-- Modelled from the spec, for comparison with `Mat2x2.determinant`:
the mathematical 2x2 determinant. -/
def det2Spec (m : Mat2x2) : ℚ :=
  m.x.x * m.y.y - m.y.x * m.x.y

/-- Modelled from the spec, for comparison with `Mat3x3.determinant`:
the mathematical 3x3 determinant (first-column cofactor expansion). -/
def det3Spec (m : Mat3x3) : ℚ :=
  m.x.x * (m.y.y * m.z.z - m.y.z * m.z.y)
  - m.y.x * (m.x.y * m.z.z - m.x.z * m.z.y)
  + m.z.x * (m.x.y * m.y.z - m.x.z * m.y.y)

/-! ## Quaternion: source file `src/quaternion.rs` -/

/-- `Quaternion<T>` at `T = ℚ`. -/
structure Quaternion where
  r : ℚ
  i : ℚ
  j : ℚ
  k : ℚ
deriving DecidableEq

namespace Quaternion

/-- `impl Mul<Vec3<T>> for Quaternion<T>`: the quaternion-vector rotation
operator, with the doubled cross terms of the source. -/
def mulVec (q : Quaternion) (v : Vec3) : Vec3 :=
  let rr := q.r * q.r
  let ri := q.r * q.i
  let rj := q.r * q.j
  let rk := q.r * q.k
  let ii := q.i * q.i
  let ij := q.i * q.j
  let ik := q.i * q.k
  let jj := q.j * q.j
  let jk := q.j * q.k
  let kk := q.k * q.k
  let ijprk2 := (ij + rk) + (ij + rk)
  let ijmrk2 := (ij - rk) + (ij - rk)
  let jkpri2 := (jk + ri) + (jk + ri)
  let jkmri2 := (jk - ri) + (jk - ri)
  let ikprj2 := (ik + rj) + (ik + rj)
  let ikmrj2 := (ik - rj) + (ik - rj)
  ⟨(rr + ii - jj - kk) * v.x + ijmrk2 * v.y + ikprj2 * v.z,
   (rr - ii + jj - kk) * v.y + jkmri2 * v.z + ijprk2 * v.x,
   (rr - ii - jj + kk) * v.z + ikmrj2 * v.x + jkpri2 * v.y⟩

end Quaternion

/-! ## Claim theorems -/

/-- C3 (code bug evaluation): the claim says `_reduce` divides numerator and
denominator by the Euclidean GCD of `(|n|, d)` and leaves the represented
value unchanged.  For `Rational<i32,u32>` with `n = -1, d = 3`:
`gcd(|-1|, 3) = 1`, so the claim demands `-1/3` back unchanged, but the code
feeds the two's-complement cast `2^32 - 1` into the loop, obtains divisor
`3`, and truncates to `0/1`, changing the represented value. -/
theorem c3_reduce_uses_cast_not_abs :
    Nat.gcd (Int.natAbs (-1)) 3 = 1 ∧
    gcdLoop (u32cast (-1)) 3 = 3 ∧
    IRational.reduce ⟨-1, 3⟩ = ⟨0, 1⟩ ∧
    (0 : Int) * 3 ≠ (-1) * 1 := by
  refine ⟨by decide, ?_, ?_, by decide⟩
  · rw [gcdLoop_eq_gcd]
    simp [u32cast]
  · simp [IRational.reduce, gcdLoop_eq_gcd, u32cast, i32cast]
    all_goals decide

/-- C2 (code bug evaluation): the lowest-terms invariant fails on the code
in two independent ways.  For `Rational<u32,u32>`, `7/4 % 5` (operand in
lowest terms) yields `2/4`, which is not reduced, because `Rem<$t>` never
calls `_reduce`.  For `Rational<i32,u32>`, `1/3 + (-2/3)` (both operands in
lowest terms) yields `-3/9`, because `_reduce` computes the GCD of the
two's-complement cast `2^32 - 3` and `9`, which is `1`, instead of
`gcd(3, 9) = 3`. -/
theorem c2_invariant_fails_after_rem_and_signed_add :
    Nat.gcd 7 4 = 1 ∧
    URational.remScalar ⟨7, 4⟩ 5 = ⟨2, 4⟩ ∧
    Nat.gcd 2 4 ≠ 1 ∧
    Nat.gcd (Int.natAbs 1) 3 = 1 ∧
    Nat.gcd (Int.natAbs (-2)) 3 = 1 ∧
    IRational.addRat ⟨1, 3⟩ ⟨-2, 3⟩ = ⟨-3, 9⟩ ∧
    Nat.gcd (Int.natAbs (-3)) 9 ≠ 1 := by
  refine ⟨by decide, by decide, by decide, by decide, by decide, ?_, by decide⟩
  simp [IRational.addRat, IRational.reduce, gcdLoop_eq_gcd, u32cast, i32cast]

/-- C5 (code bug evaluation): with `a = -1/3` and `b = 0/1`, both valid
(lowest terms, positive denominators), `Rational<i32,u32>` computes
`a + b = 0/1` (the cast bug in `_reduce` divides `-1` by `3`, truncating to
`0`), and `(a + b) - b = 0/1 ≠ a`. -/
theorem c5_add_sub_roundtrip_fails :
    Nat.gcd (Int.natAbs (-1)) 3 = 1 ∧
    Nat.gcd (Int.natAbs 0) 1 = 1 ∧
    IRational.addRat ⟨-1, 3⟩ ⟨0, 1⟩ = ⟨0, 1⟩ ∧
    IRational.subRat ⟨0, 1⟩ ⟨0, 1⟩ = ⟨0, 1⟩ ∧
    (⟨0, 1⟩ : IRational) ≠ ⟨-1, 3⟩ := by
  refine ⟨by decide, by decide, ?_, ?_, by simp⟩
  · simp [IRational.addRat, IRational.reduce, gcdLoop_eq_gcd, u32cast, i32cast]
    all_goals decide
  · simp [IRational.subRat, IRational.reduce, gcdLoop_eq_gcd, u32cast, i32cast]

/-- C8: the rational-by-rational remainder operators are unimplemented
stubs: `%` returns the left operand unchanged and `%=` leaves the receiver
unchanged, on the unsigned and the signed instantiations alike. -/
theorem c8_rem_rational_stubs :
    (∀ a b : URational, URational.remRat a b = a ∧ URational.remAssignRat a b = a) ∧
    (∀ a b : IRational, IRational.remRat a b = a ∧ IRational.remAssignRat a b = a) :=
  ⟨fun _ _ => ⟨rfl, rfl⟩, fun _ _ => ⟨rfl, rfl⟩⟩

/-- C10: `inverse()` swaps numerator and denominator through plain casts
with no zero check, sign folding or reduction.  For `n < 0` the resulting
denominator is the two's-complement value `n + 2^32`, not `|n|` (whenever
`n ≠ -2^31`); the result represents the reciprocal `d/n` precisely when
`n > 0` (for in-range `i32`/`u32` field values with `d < 2^31`), and never
when `n < 0` (with `d ≠ 0`). -/
theorem c10_inverse_plain_cast_swap (r : IRational) :
    IRational.inverse r = ⟨i32cast r.d, u32cast r.n⟩ ∧
    (r.n < 0 → -2 ^ 31 ≤ r.n → ((IRational.inverse r).d : Int) = r.n + 2 ^ 32) ∧
    (r.n < 0 → -2 ^ 31 < r.n → (IRational.inverse r).d ≠ r.n.natAbs) ∧
    (0 < r.n → r.n < 2 ^ 31 → r.d < 2 ^ 31 →
      (IRational.inverse r).n * r.n = (r.d : Int) * ((IRational.inverse r).d : Int)) ∧
    (r.n < 0 → -2 ^ 31 ≤ r.n → r.d ≠ 0 → r.d < 2 ^ 31 →
      (IRational.inverse r).n * r.n ≠ (r.d : Int) * ((IRational.inverse r).d : Int)) := by
  refine ⟨rfl, ?_, ?_, ?_, ?_⟩
  · intro h0 h1
    show (u32cast r.n : Int) = _
    rw [u32cast_int_of_neg (by omega) h0]
  · intro h0 h1
    show u32cast r.n ≠ _
    unfold u32cast
    omega
  · intro h0 h1 h2
    show i32cast r.d * r.n = (r.d : Int) * (u32cast r.n : Int)
    rw [i32cast_of_lt h2, u32cast_int_of_nonneg (by omega) (by omega)]
  · intro h0 h1 h2 h3
    show i32cast r.d * r.n ≠ (r.d : Int) * (u32cast r.n : Int)
    rw [i32cast_of_lt h3, u32cast_int_of_neg (by omega) h0]
    intro h
    have hd : (r.d : Int) ≠ 0 := Int.natCast_ne_zero.mpr h2
    have := mul_left_cancel₀ hd h
    omega

/-- Closed witness for the hypotheses of `c10_inverse_plain_cast_swap`:
instantiated at `-3/7` (negative-numerator conjuncts) and `3/7`
(positive-numerator conjunct). -/
theorem c10_inverse_plain_cast_swap_witness :
    ((IRational.inverse ⟨-3, 7⟩).d : Int) = -3 + 2 ^ 32 ∧
    (IRational.inverse ⟨-3, 7⟩).d ≠ Int.natAbs (-3) ∧
    (IRational.inverse ⟨3, 7⟩).n * 3 = (7 : Int) * ((IRational.inverse ⟨3, 7⟩).d : Int) ∧
    (IRational.inverse ⟨-3, 7⟩).n * (-3) ≠ (7 : Int) * ((IRational.inverse ⟨-3, 7⟩).d : Int) :=
  ⟨(c10_inverse_plain_cast_swap ⟨-3, 7⟩).2.1 (by decide) (by decide),
   (c10_inverse_plain_cast_swap ⟨-3, 7⟩).2.2.1 (by decide) (by decide),
   (c10_inverse_plain_cast_swap ⟨3, 7⟩).2.2.2.1 (by decide) (by decide) (by decide),
   (c10_inverse_plain_cast_swap ⟨-3, 7⟩).2.2.2.2 (by decide) (by decide) (by decide) (by decide)⟩

/-- C7: `Fixed` multiplication stores the raw integer product arithmetically
shifted right by `B` (equivalently, floor-divided by `2^B`), and division
(for a nonzero divisor) stores the dividend shifted left by `B`
(equivalently, multiplied by `2^B`) then integer-divided (truncating,
as Rust `/` does) by the divisor's stored integer. -/
theorem c7_fixed_mul_div (B : Nat) (a b : Fixed B) :
    (Fixed.mul a b).v = (a.v * b.v) >>> B ∧
    (Fixed.mul a b).v = (a.v * b.v) / (2 ^ B : Int) ∧
    (b.v ≠ 0 → (Fixed.div a b).v = Int.tdiv (a.v * 2 ^ B) b.v) := by
  refine ⟨rfl, ?_, ?_⟩
  · show (a.v * b.v) >>> B = _
    rw [Int.shiftRight_eq_div_pow]
    norm_num
  · intro _
    show Int.tdiv (a.v <<< (B : Int)) b.v = _
    rw [Int.shiftLeft_eq_mul_pow]
    norm_num

/-- Closed witness for the divisor-nonzero hypothesis of
`c7_fixed_mul_div`, at `B = 4`, `a = ⟨-7⟩`, `b = ⟨5⟩`. -/
theorem c7_fixed_mul_div_witness :
    (Fixed.div (⟨-7⟩ : Fixed 4) ⟨5⟩).v = Int.tdiv ((-7) * 2 ^ 4) 5 :=
  (c7_fixed_mul_div 4 ⟨-7⟩ ⟨5⟩).2.2 (by decide)

/-- C9: multiplying the identity quaternion `{r:1,i:0,j:0,k:0}` by any
3-vector with the quaternion-vector rotation operator returns the vector
unchanged. -/
theorem c9_identity_quaternion_rotation (v : Vec3) :
    Quaternion.mulVec ⟨1, 0, 0, 0⟩ v = v := by
  rcases v with ⟨x, y, z⟩
  unfold Quaternion.mulVec
  simp only [Vec3.mk.injEq]
  refine ⟨by ring, by ring, by ring⟩

/-- C6: on each of `Mat2x2`, `Mat3x3` and `Mat4x4`, when `determinant()` is
the scalar zero, `inverse()` returns the matrix itself, exactly unchanged
(the `if det == T::ZERO { return self; }` early exit, which recomputes the
same first-column-adjoint expression as `determinant()`). -/
theorem c6_singular_inverse_returns_self :
    (∀ m : Mat2x2, m.determinant = 0 → m.inverse = m) ∧
    (∀ m : Mat3x3, m.determinant = 0 → m.inverse = m) ∧
    (∀ m : Mat4x4, m.determinant = 0 → m.inverse = m) := by
  refine ⟨fun m h => ?_, fun m h => ?_, fun m h => ?_⟩
  · simp only [Mat2x2.determinant] at h
    simp only [Mat2x2.inverse]
    rw [if_pos h]
  · simp only [Mat3x3.determinant] at h
    simp only [Mat3x3.inverse]
    rw [if_pos h]
  · simp only [Mat4x4.determinant] at h
    simp only [Mat4x4.inverse]
    rw [if_pos h]

/-- Closed witness for the singularity hypotheses of
`c6_singular_inverse_returns_self`, at a singular matrix of each size. -/
theorem c6_singular_inverse_returns_self_witness :
    Mat2x2.inverse ⟨⟨1, 2⟩, ⟨2, 4⟩⟩ = ⟨⟨1, 2⟩, ⟨2, 4⟩⟩ ∧
    Mat3x3.inverse ⟨⟨1, 1, 1⟩, ⟨1, 1, 1⟩, ⟨1, 1, 1⟩⟩ = ⟨⟨1, 1, 1⟩, ⟨1, 1, 1⟩, ⟨1, 1, 1⟩⟩ ∧
    Mat4x4.inverse ⟨⟨1, 1, 1, 1⟩, ⟨1, 1, 1, 1⟩, ⟨1, 1, 1, 1⟩, ⟨1, 1, 1, 1⟩⟩ =
      ⟨⟨1, 1, 1, 1⟩, ⟨1, 1, 1, 1⟩, ⟨1, 1, 1, 1⟩, ⟨1, 1, 1, 1⟩⟩ :=
  ⟨c6_singular_inverse_returns_self.1 _ (by norm_num [Mat2x2.determinant]),
   c6_singular_inverse_returns_self.2.1 _ (by norm_num [Mat3x3.determinant]),
   c6_singular_inverse_returns_self.2.2 _ (by norm_num [Mat4x4.determinant])⟩

/-- C4 (code bug evaluation): `Mat2x2::determinant` agrees with the
mathematical determinant everywhere (and gives `-2` on `[[1,2],[3,4]]`),
but `Mat3x3::determinant` and `Mat4x4::determinant` do not: the 3x3 `axy`
cofactor has its minor's rows swapped inside the negation (net sign flip),
and the 4x4 `axw` cofactor repeats `wx` where `zx` belongs. -/
theorem c4_determinant_vs_cofactor_expansion :
    (∀ m : Mat2x2, m.determinant = det2Spec m) ∧
    Mat2x2.determinant ⟨⟨1, 2⟩, ⟨3, 4⟩⟩ = -2 ∧
    Mat3x3.determinant ⟨⟨2, 3, 5⟩, ⟨7, 11, 13⟩, ⟨17, 19, 23⟩⟩ = -438 ∧
    det3Spec ⟨⟨2, 3, 5⟩, ⟨7, 11, 13⟩, ⟨17, 19, 23⟩⟩ = -78 ∧
    Mat4x4.determinant ⟨⟨1, 0, 0, 1⟩, ⟨0, 1, 0, 0⟩, ⟨1, 0, 1, 0⟩, ⟨0, 1, 1, 1⟩⟩ = 1 ∧
    det4Spec ⟨⟨1, 0, 0, 1⟩, ⟨0, 1, 0, 0⟩, ⟨1, 0, 1, 0⟩, ⟨0, 1, 1, 1⟩⟩ = 2 := by
  refine ⟨fun m => ?_, ?_, ?_, ?_, ?_, ?_⟩
  · unfold Mat2x2.determinant det2Spec
    ring
  · norm_num [Mat2x2.determinant]
  · norm_num [Mat3x3.determinant]
  · norm_num [det3Spec]
  · norm_num [Mat4x4.determinant]
  · norm_num [det4Spec, det3x3]

/-- C1 (code bug evaluation): under exact rational arithmetic,
`M * M.inverse()` differs from the identity for nonsingular matrices of
every size: the 2x2 inverse transposes the adjugate (yielding the
transposed inverse), and the 3x3/4x4 versions additionally inherit the
cofactor errors exhibited in `c4_determinant_vs_cofactor_expansion`. -/
theorem c1_inverse_product_not_identity :
    (Mat2x2.determinant ⟨⟨2, 3⟩, ⟨5, 7⟩⟩ ≠ 0 ∧
      Mat2x2.mul ⟨⟨2, 3⟩, ⟨5, 7⟩⟩ (Mat2x2.inverse ⟨⟨2, 3⟩, ⟨5, 7⟩⟩) ≠ Mat2x2.identity) ∧
    (Mat3x3.determinant ⟨⟨1, 2, 3⟩, ⟨4, 5, 6⟩, ⟨7, 8, 10⟩⟩ ≠ 0 ∧
      Mat3x3.mul ⟨⟨1, 2, 3⟩, ⟨4, 5, 6⟩, ⟨7, 8, 10⟩⟩
        (Mat3x3.inverse ⟨⟨1, 2, 3⟩, ⟨4, 5, 6⟩, ⟨7, 8, 10⟩⟩) ≠ Mat3x3.identity) ∧
    (Mat4x4.determinant ⟨⟨2, 3, 5, 7⟩, ⟨11, 13, 17, 19⟩, ⟨23, 29, 31, 37⟩, ⟨41, 43, 47, 53⟩⟩ ≠ 0 ∧
      Mat4x4.mul ⟨⟨2, 3, 5, 7⟩, ⟨11, 13, 17, 19⟩, ⟨23, 29, 31, 37⟩, ⟨41, 43, 47, 53⟩⟩
        (Mat4x4.inverse ⟨⟨2, 3, 5, 7⟩, ⟨11, 13, 17, 19⟩, ⟨23, 29, 31, 37⟩, ⟨41, 43, 47, 53⟩⟩)
        ≠ Mat4x4.identity) := by
  refine ⟨⟨?_, ?_⟩, ⟨?_, ?_⟩, ⟨?_, ?_⟩⟩
  · norm_num [Mat2x2.determinant]
  · norm_num [Mat2x2.mul, Mat2x2.inverse, Mat2x2.divScalar, Mat2x2.identity,
      Mat2x2.mk.injEq, Vec2.mk.injEq]
  · norm_num [Mat3x3.determinant]
  · norm_num [Mat3x3.mul, Mat3x3.inverse, Mat3x3.divScalar, Mat3x3.identity,
      Mat3x3.mk.injEq, Vec3.mk.injEq]
  · norm_num [Mat4x4.determinant]
  · norm_num [Mat4x4.mul, Mat4x4.inverse, Mat4x4.divScalar, Mat4x4.identity,
      Mat4x4.mk.injEq, Vec4.mk.injEq]

end EMath
